import Mathlib

set_option maxHeartbeats 1000000

/-!
Verification development for the Research-PoC repository.

The definitions below are a shallow embedding of the core subsystems:

- the in-memory sliding-window rate limiter
  (services/text-summarization/main.py, class InMemoryRateLimiter);
- the context repository UPDATE / soft-delete statements
  (services/context-service/repository.py, class ContextRepository);
- the JWKS key cache and the JWT validator
  (services/context-service/auth.py, classes JWKSManager and
  EnhancedJWTValidator);
- the summarization retry/fallback engine and the semantic scorer
  (services/text-summarization/pipeline.py, class SummarizationPipeline).

Timestamps and scores are modelled as rationals, external effects
(network fetches, AI backends, the sentence-embedding model, signature
verification) as explicit oracles passed in as arguments, and the SQL
statements by their documented semantics on a list of rows.
-/

namespace Spec2Proof

/-! ### Rate limiter (services/text-summarization/main.py) -/

/-- state of InMemoryRateLimiter: the limit, the window length in seconds and
the per-key request timestamp lists (the Python dict; keys that were never
inserted read as the empty list, matching the `if key not in ...` guard). -/
structure Limiter where
  calls : Nat
  period : Rat
  requests : String → List Rat

/-- pointwise update of the requests map at one key. -/
def setKey (m : String → List Rat) (key : String) (l : List Rat) :
    String → List Rat :=
  fun x => if x = key then l else m x

/-- the lazy sweep in is_allowed: keep the entries with now - t < period. -/
def sweep (period now : Rat) (l : List Rat) : List Rat :=
  l.filter (fun t => now - t < period)

/-- InMemoryRateLimiter.is_allowed: sweep the key's list, reject when the
swept list already has at least `calls` entries, otherwise record the
current time and admit. -/
def isAllowed (rl : Limiter) (key : String) (now : Rat) : Bool × Limiter :=
  let cleaned := sweep rl.period now (rl.requests key)
  if rl.calls ≤ cleaned.length then
    (false, { rl with requests := setKey rl.requests key cleaned })
  else
    (true, { rl with requests := setKey rl.requests key (cleaned ++ [now]) })

/-- run a sequence of is_allowed checks for one key at the given times,
collecting the verdicts. -/
def runChecks (key : String) : Limiter → List Rat → List Bool × Limiter
  | rl, [] => ([], rl)
  | rl, t :: ts =>
    let p := isAllowed rl key t
    let q := runChecks key p.2 ts
    (p.1 :: q.1, q.2)

/-! ### Context repository (services/context-service/repository.py) -/

/-- one row of the contexts table. -/
structure ContextRecord where
  id : String
  contextData : String
  contextType : String
  title : Option String
  description : Option String
  tags : List String
  tenantId : String
  userId : Option String
  createdAt : Rat
  updatedAt : Rat
  expiresAt : Option Rat
  version : Nat
deriving DecidableEq

/-- the WHERE guard shared by update_context and delete_context:
expires_at IS NULL OR expires_at > NOW(). -/
def isLive (now : Rat) (r : ContextRecord) : Bool :=
  match r.expiresAt with
  | none => true
  | some e => now < e

/-- WHERE id = $1 AND (expires_at IS NULL OR expires_at > NOW()). -/
def matchesRow (now : Rat) (cid : String) (r : ContextRecord) : Bool :=
  r.id == cid && isLive now r

/-- the optional bind parameters of update_context; a `none` field means the
caller did not supply that field (COALESCE keeps the previous value). -/
structure UpdateData where
  contextData : Option String
  title : Option String
  description : Option String
  tags : Option (List String)
  expiresAt : Option Rat
deriving DecidableEq

/-- two-argument SQL COALESCE over a nullable column. -/
def coalesce {α : Type} (p : Option α) (c : Option α) : Option α :=
  match p with
  | some v => some v
  | none => c

/-- the SET clause of ContextRepository.update_context applied to one
matching row: COALESCE each supplied field with the previous value, stamp
updated_at, and increment version unconditionally. -/
def applyUpdateSet (now : Rat) (u : UpdateData) (r : ContextRecord) :
    ContextRecord :=
  { r with
    contextData := u.contextData.getD r.contextData
    title := coalesce u.title r.title
    description := coalesce u.description r.description
    tags := u.tags.getD r.tags
    updatedAt := now
    expiresAt := coalesce u.expiresAt r.expiresAt
    version := r.version + 1 }

/-- ContextRepository.update_context: run the UPDATE over the table and
report whether any row was affected (the parsed row count compared with 0),
together with the new table. -/
def update_context (now : Rat) (cid : String) (u : UpdateData)
    (table : List ContextRecord) : Bool × List ContextRecord :=
  (0 < (table.filter (matchesRow now cid)).length,
   table.map (fun r => if matchesRow now cid r then applyUpdateSet now u r else r))

/-- the SET clause of ContextRepository.delete_context applied to one
matching row: soft delete by stamping expires_at (and updated_at) with NOW(). -/
def applyDeleteSet (now : Rat) (r : ContextRecord) : ContextRecord :=
  { r with expiresAt := some now, updatedAt := now }

/-- ContextRepository.delete_context: soft delete with the same WHERE guard
as update_context; reports whether any row was affected. -/
def delete_context (now : Rat) (cid : String)
    (table : List ContextRecord) : Bool × List ContextRecord :=
  (0 < (table.filter (matchesRow now cid)).length,
   table.map (fun r => if matchesRow now cid r then applyDeleteSet now r else r))

/-! ### JWKS cache and JWT validator (services/context-service/auth.py) -/

/-- one JSON Web Key: its optional kid and its key material (opaque here).
A key with no kid never matches a lookup, matching key.get("kid") == kid. -/
structure Jwk where
  kid : Option String
  material : String
deriving DecidableEq

/-- mutable state of JWKSManager: the cached JWKS (none models the initial
empty, falsy dict) and the fetch timestamp. -/
structure JWKSState where
  keysCache : Option (List Jwk)
  cacheTimestamp : Rat
deriving DecidableEq

/-- JWKSManager.get_jwks: serve from the cache when not forced, the cache
has been populated and its age is below the TTL; otherwise fetch. A fetch
returns the fixed remote key set, replaces the cache wholesale and stamps
the timestamp. The third component counts fetches performed (0 or 1). -/
def get_jwks (cacheTtl : Rat) (remote : List Jwk) (now : Rat)
    (forceRefresh : Bool) (st : JWKSState) : List Jwk × JWKSState × Nat :=
  if forceRefresh = false ∧ st.keysCache ≠ none ∧
      now - st.cacheTimestamp < cacheTtl then
    (st.keysCache.getD [], st, 0)
  else
    (remote, ⟨some remote, now⟩, 1)

/-- the linear scan for a kid inside get_key_by_kid. -/
def findKid (kid : String) (ks : List Jwk) : Option Jwk :=
  ks.find? (fun k => k.kid == some kid)

/-- JWKSManager.get_key_by_kid: scan the (possibly cached) key set; on a
miss force exactly one refresh and scan again; return the key or none,
the final cache state and the total number of fetches performed. -/
def get_key_by_kid (cacheTtl : Rat) (remote : List Jwk) (now : Rat)
    (kid : String) (st : JWKSState) : Option Jwk × JWKSState × Nat :=
  let a := get_jwks cacheTtl remote now false st
  match findKid kid a.1 with
  | some k => (some k, a.2.1, a.2.2)
  | none =>
    let b := get_jwks cacheTtl remote now true a.2.1
    (findKid kid b.1, b.2.1, a.2.2 + b.2.2)

/-- the decoded JWT payload fields read by _validate_payload. -/
structure Payload where
  sub : Option String
  iat : Option Rat
  exp : Option Rat
  tenantId : Option String
  scopes : Option (List String)
deriving DecidableEq

/-- outcome of the python-jose jwt.decode call, as far as validate_token
distinguishes it: a decoded payload, or one of the exception classes caught
at the bottom of validate_token. -/
inductive JoseOutcome where
  | ok (payload : Payload)
  | expiredSignature
  | claimsError
  | jwtError
deriving DecidableEq

/-- the documented contract of jose.jwt.decode for its algorithms argument:
a token whose header alg is not in the allowlist is rejected with a JWTError
before any signature or claim check; every other behaviour of decode
(signature verification against the constructed key, temporal checks) is the
oracle `rest` supplied by the caller. -/
def joseDecode (allowedAlgs : List String) (alg : String)
    (rest : JoseOutcome) : JoseOutcome :=
  if allowedAlgs.contains alg then rest else .jwtError

/-- the failure reasons of EnhancedJWTValidator, one per JWTValidationError
raise site. -/
inductive ValErr where
  | missingKid
  | unknownKid
  | invalidPublicKey
  | expired
  | claimsInvalid
  | tokenInvalid
  | missingClaim (c : String)
  | invalidSubject
  | missingTenant
  | tenantMismatch
  | invalidScopesFormat
  | missingScopes
  | tokenTooOld
deriving DecidableEq

/-- Python truthiness of an optional string (None and the empty string are
falsy). -/
def truthyStr (s : Option String) : Bool :=
  match s with
  | none => false
  | some v => v ≠ ""

/-- the token-age guard of _validate_payload: iat truthy (nonzero) and the
age beyond the 24h maximum. -/
def tokenTooOldChk (now : Rat) (iat : Option Rat) : Bool :=
  match iat with
  | some v => decide (v ≠ 0) && decide (24 * 3600 < now - v)
  | none => false

/-- EnhancedJWTValidator._validate_payload: required claims, subject shape,
tenant match, scope containment and the 24h maximum token age. -/
def validatePayload (now : Rat) (payload : Payload)
    (requiredTenantId : Option String)
    (requiredScopes : Option (List String)) : Except ValErr Unit :=
  if payload.sub = none then .error (.missingClaim "sub")
  else if payload.iat = none then .error (.missingClaim "iat")
  else if payload.exp = none then .error (.missingClaim "exp")
  else if truthyStr payload.sub = false then .error .invalidSubject
  else if truthyStr requiredTenantId ∧ truthyStr payload.tenantId = false then
    .error .missingTenant
  else if truthyStr requiredTenantId ∧ payload.tenantId ≠ requiredTenantId then
    .error .tenantMismatch
  else if (requiredScopes.getD []) ≠ [] ∧
      ¬ (requiredScopes.getD []).all (fun s => (payload.scopes.getD []).contains s) then
    .error .missingScopes
  else if tokenTooOldChk now payload.iat then
    .error .tokenTooOld
  else .ok ()

/-- the JWT header fields validate_token reads before verification. -/
structure TokenHeader where
  kid : Option String
  alg : String
deriving DecidableEq

/-- EnhancedJWTValidator.validate_token: extract the kid, resolve it through
get_key_by_kid, construct the public key (oracle constructOk), run
jose.jwt.decode with the hard-coded allowlist ["RS256", "ES256"], then run
_validate_payload. Every failure path is a ValErr. -/
def validate_token (cacheTtl : Rat) (remote : List Jwk) (now : Rat)
    (header : TokenHeader) (constructOk : Jwk → Bool)
    (joseRest : Jwk → JoseOutcome) (requiredTenantId : Option String)
    (requiredScopes : Option (List String)) (st : JWKSState) :
    Except ValErr Payload :=
  match header.kid with
  | none => .error .missingKid
  | some kid =>
    if kid = "" then .error .missingKid
    else
      match (get_key_by_kid cacheTtl remote now kid st).1 with
      | none => .error .unknownKid
      | some jwkData =>
        if constructOk jwkData = false then .error .invalidPublicKey
        else
          match joseDecode ["RS256", "ES256"] header.alg (joseRest jwkData) with
          | .ok payload =>
            match validatePayload now payload requiredTenantId requiredScopes with
            | .ok _ => .ok payload
            | .error e => .error e
          | .expiredSignature => .error .expired
          | .claimsError => .error .claimsInvalid
          | .jwtError => .error .tokenInvalid

/-- whether an Except value is a success. -/
def exceptIsOk {ε α : Type} : Except ε α → Bool
  | .ok _ => true
  | .error _ => false

/-! ### Summarization engine (services/text-summarization/pipeline.py) -/

/-- the fields of SummarizationRequest read by generate_summary
(models.py constrains semantic_threshold to [0.6, 0.95] and retry_attempts
to [1, 5]). -/
structure SummRequest where
  textBlob : String
  semanticThreshold : Rat
  aiModel : String
  retryAttempts : Nat
deriving DecidableEq

/-- result of one _generate_with_model call: a summary text, or a raised
ModelError. -/
inductive GenResult where
  | ok (summary : String)
  | modelError
deriving DecidableEq

/-- the warnings appended by generate_summary, identified by construction
site (the model keeps the identity and order of warnings, abstracting the
formatted message strings). -/
inductive Warning where
  | belowThreshold (attempt : Nat) (score : Rat)
  | fallbackToLocal
  | fallbackFailed
deriving DecidableEq

/-- the SummarizationResponse fields the engine computes (timestamps and
character-length bookkeeping omitted). -/
structure SummResponse where
  refinedText : String
  semanticScore : Rat
  modelUsed : String
  attempts : Nat
  retryCount : Int
  status : String
  warnings : List Warning
deriving DecidableEq

/-- how a generate_summary call ends: a response, the SemanticThresholdError
raise at the bottom of the function, or the bare `raise` statement executed
with no active exception (Python raises RuntimeError there). -/
inductive Outcome where
  | success (resp : SummResponse)
  | semanticThresholdError (attempts : Nat) (bestScore : Rat)
  | runtimeErrorBareRaise
deriving DecidableEq

/-- ghost instrumentation of a run: how many times the fallback branch
invoked the local model. -/
structure Trace where
  fallbackCalls : Nat
deriving DecidableEq

/-- the loop-carried variables of generate_summary, plus the ghost fallback
counter. -/
structure LoopState where
  bestSummary : String
  bestScore : Rat
  modelUsed : String
  warnings : List Warning
  fallbackCalls : Nat
deriving DecidableEq

/-- best-so-far tracking: replace the best summary when the new score is
strictly greater. -/
def updateBest (summary : String) (score : Rat) (st : LoopState) : LoopState :=
  if st.bestScore < score then
    { st with bestSummary := summary, bestScore := score }
  else st

/-- outcome of one loop iteration step: the loop either broke out or falls
through to the next statement. -/
inductive Step where
  | broke (st : LoopState)
  | cont (st : LoopState)
deriving DecidableEq

/-- the state carried by a step. -/
def Step.state : Step → LoopState
  | .broke st => st
  | .cont st => st

/-- the inner try of one iteration: call the requested backend for attempt
n1; on success score it, track the best, break when the threshold is met,
else append the below-threshold warning unless this is the last attempt;
a ModelError is swallowed and the iteration falls through. -/
def primaryStep (req : SummRequest) (primary : Nat → GenResult)
    (score : String → Rat) (n1 : Nat) (st : LoopState) : Step :=
  match primary n1 with
  | .ok summary =>
    let s := score summary
    let st1 := updateBest summary s st
    if req.semanticThreshold ≤ s then .broke st1
    else
      .cont (if n1 < req.retryAttempts then
               { st1 with warnings := st1.warnings ++ [.belowThreshold n1 s] }
             else st1)
  | .modelError => .cont st

/-- the fallback block of one iteration: when the requested model is not
"local" and this is attempt 1, invoke the local model once; on success score
it, switch model_used, append the fallback warning, track the best and break
when the threshold is met; on failure append the fallback-failed warning. -/
def fallbackStep (req : SummRequest) (fallback : GenResult)
    (score : String → Rat) (n1 : Nat) (st : LoopState) : Step :=
  if req.aiModel ≠ "local" ∧ n1 = 1 then
    let st0 := { st with fallbackCalls := st.fallbackCalls + 1 }
    match fallback with
    | .ok summary =>
      let s := score summary
      let st1 := { st0 with modelUsed := "local",
                            warnings := st0.warnings ++ [.fallbackToLocal] }
      let st2 := updateBest summary s st1
      if req.semanticThreshold ≤ s then .broke st2 else .cont st2
    | .modelError =>
      .cont { st0 with warnings := st0.warnings ++ [.fallbackFailed] }
  else .cont st

/-- the code after the while loop: raise SemanticThresholdError when the
best score is still below the threshold, else build the response
(retry_count is attempts - 1; any warning downgrades status to
partial_success). -/
def finishRun (req : SummRequest) (attempts : Nat) (st : LoopState) : Outcome :=
  if st.bestScore < req.semanticThreshold then
    .semanticThresholdError attempts st.bestScore
  else
    .success
      { refinedText := st.bestSummary
        semanticScore := st.bestScore
        modelUsed := st.modelUsed
        attempts := attempts
        retryCount := (attempts : Int) - 1
        status := if st.warnings = [] then "success" else "partial_success"
        warnings := st.warnings }

/-- the while loop of generate_summary. The fuel is the number of loop
iterations the `attempts < retry_attempts` guard still permits (retry
minus the attempts already made), so fuel 0 is exactly the guard turning
false; each iteration increments attempts, runs the primary try/except, the
fallback block, and then the `if attempts >= retry_attempts: raise`
statement — a bare raise with no active exception, i.e. a RuntimeError. -/
def summLoop (req : SummRequest) (primary : Nat → GenResult)
    (fallback : GenResult) (score : String → Rat) :
    Nat → Nat → LoopState → Outcome × Trace
  | 0, n, st => (finishRun req n st, ⟨st.fallbackCalls⟩)
  | k + 1, n, st =>
    let n1 := n + 1
    match primaryStep req primary score n1 st with
    | .broke st1 => (finishRun req n1 st1, ⟨st1.fallbackCalls⟩)
    | .cont st1 =>
      match fallbackStep req fallback score n1 st1 with
      | .broke st2 => (finishRun req n1 st2, ⟨st2.fallbackCalls⟩)
      | .cont st2 =>
        if req.retryAttempts ≤ n1 then (.runtimeErrorBareRaise, ⟨st2.fallbackCalls⟩)
        else summLoop req primary fallback score k n1 st2

/-- initial loop state of generate_summary. -/
def initState (req : SummRequest) : LoopState :=
  { bestSummary := ""
    bestScore := 0
    modelUsed := req.aiModel
    warnings := []
    fallbackCalls := 0 }

/-- SummarizationPipeline.generate_summary, with the backend calls and the
scorer passed in as oracles: primary n is the result of the requested
backend on attempt n, fallback the result of the single possible local
fallback call, and score the semantic similarity of a summary against the
original text. -/
def generate_summary (req : SummRequest) (primary : Nat → GenResult)
    (fallback : GenResult) (score : String → Rat) : Outcome × Trace :=
  summLoop req primary fallback score req.retryAttempts 0 (initState req)

/-! ### Semantic scorer (pipeline.py, _calculate_semantic_similarity) -/

/-- numpy dot product of two embedding vectors. -/
def dotp (v w : List Rat) : Rat := (List.zipWith (fun a b => a * b) v w).sum

/-- cosine similarity as computed in the source: the dot product divided by
the product of the two Euclidean norms. -/
noncomputable def cosineSim (v w : List Rat) : ℝ :=
  ((dotp v w : Rat) : ℝ) /
    (Real.sqrt ((dotp v v : Rat) : ℝ) * Real.sqrt ((dotp w w : Rat) : ℝ))

/-- max(0.0, min(1.0, x)): the clip of the similarity into [0, 1]. -/
noncomputable def clip01 (x : ℝ) : ℝ := max 0 (min 1 x)

/-- SummarizationPipeline._calculate_semantic_similarity: a missing
sentence transformer or a failed encode call lands in the except branch and
returns the neutral 0.5; otherwise the result is the clipped cosine
similarity of the two embeddings. encodePair is the embedding oracle for a
pair of texts (the single encode([text1, text2]) call); none models it
raising. -/
noncomputable def calculate_semantic_similarity (initialized : Bool)
    (encodePair : String → String → Option (List Rat × List Rat))
    (t1 t2 : String) : ℝ :=
  if initialized = false then 1 / 2
  else
    match encodePair t1 t2 with
    | none => 1 / 2
    | some (v, w) => clip01 (cosineSim v w)

/-! ### Concrete inputs used by witnesses and counterexamples -/

/-- a live context row used in witnesses. -/
def demoRecord : ContextRecord :=
  ⟨"ctx_1", "data", "note", none, none, [], "tenant-a", none, 0, 0, none, 1⟩

/-- a request for the local backend, threshold 0.8, budget 3 (rationals are
written with mkRat so that concrete runs evaluate inside the kernel). -/
def demoReqLocal : SummRequest := ⟨"original text", mkRat 4 5, "local", 3⟩

/-- a request for the openai backend, threshold 0.8, budget 3. -/
def demoReqOpenai : SummRequest := ⟨"original text", mkRat 4 5, "openai", 3⟩

/-- a scorer oracle assigning the engineered scores 0.7, 0.75, 0.92 to the
three stub texts. -/
def demoScore : String → Rat := fun s =>
  if s = "t1" then mkRat 7 10
  else if s = "t2" then mkRat 3 4
  else if s = "t3" then mkRat 92 100
  else 0

/-- the condition under which the first attempt of generate_summary does not
break out of the loop: the requested backend either raised a ModelError or
produced a summary scoring strictly below the threshold. -/
def firstAttemptMisses (req : SummRequest) (primary : Nat → GenResult)
    (score : String → Rat) : Prop :=
  match primary 1 with
  | .ok s => score s < req.semanticThreshold
  | .modelError => True

/-- a deterministic stub backend returning the three fixed texts in order. -/
def demoPrimary : Nat → GenResult := fun n =>
  .ok (if n = 1 then "t1" else if n = 2 then "t2" else "t3")

/-! ## Theorems -/

/-! ### Repository: update and soft delete -/

/--
C7: for every context record present and not expired, every successful
update_context call increments the record's version by exactly 1, regardless
of which fields the update supplies (the statement is universal in the
UpdateData, including the all-none zero-field update), and update_context
returns whether a row was actually affected: true exactly when a live row
with the id exists, false when it is absent or expired.
-/
theorem C7_update_version_and_affected (now : Rat) (cid : String)
    (u : UpdateData) (table : List ContextRecord) :
    ((update_context now cid u table).1 = true ↔
      ∃ r ∈ table, r.id = cid ∧ isLive now r = true) ∧
    (update_context now cid u table).2.map (fun r => r.version) =
      table.map (fun r =>
        if r.id = cid ∧ isLive now r = true then r.version + 1 else r.version) := by
  constructor
  · simp only [update_context, decide_eq_true_eq]
    rw [List.length_pos_iff_exists_mem]
    constructor
    · rintro ⟨r, hr⟩
      rw [List.mem_filter] at hr
      refine ⟨r, hr.1, ?_, ?_⟩
      · have := hr.2
        simp [matchesRow, Bool.and_eq_true, beq_iff_eq] at this
        exact this.1
      · have := hr.2
        simp [matchesRow, Bool.and_eq_true] at this
        exact this.2
    · rintro ⟨r, hr, hid, hlive⟩
      exact ⟨r, List.mem_filter.2 ⟨hr, by simp [matchesRow, hid, hlive]⟩⟩
  · simp only [update_context, List.map_map]
    apply List.map_congr_left
    intro r _
    by_cases h : matchesRow now cid r = true
    · have hid : r.id = cid := by
        have := h; simp [matchesRow, Bool.and_eq_true, beq_iff_eq] at this
        exact this.1
      have hlive : isLive now r = true := by
        have := h; simp [matchesRow, Bool.and_eq_true] at this
        exact this.2
      simp [Function.comp, h, applyUpdateSet, hid, hlive]
    · have hsplit : ¬ (r.id = cid ∧ isLive now r = true) := by
        intro hc
        exact h (by simp [matchesRow, hc.1, hc.2])
      simp [Function.comp, h, hsplit]

/--
C10: update_context never changes the id, tenant_id, user_id, context_type
or created_at column of any row, affected or not, whatever fields the caller
supplies; only the columns named in the SET clause can change, and the table
keeps its length.
-/
theorem C10_update_frame (now : Rat) (cid : String) (u : UpdateData)
    (table : List ContextRecord) :
    (update_context now cid u table).2.length = table.length ∧
    (update_context now cid u table).2.map (fun r => r.id) =
      table.map (fun r => r.id) ∧
    (update_context now cid u table).2.map (fun r => r.tenantId) =
      table.map (fun r => r.tenantId) ∧
    (update_context now cid u table).2.map (fun r => r.userId) =
      table.map (fun r => r.userId) ∧
    (update_context now cid u table).2.map (fun r => r.contextType) =
      table.map (fun r => r.contextType) ∧
    (update_context now cid u table).2.map (fun r => r.createdAt) =
      table.map (fun r => r.createdAt) := by
  refine ⟨by simp [update_context], ?_, ?_, ?_, ?_, ?_⟩ <;>
    · simp only [update_context, List.map_map]
      apply List.map_congr_left
      intro r _
      by_cases h : matchesRow now cid r = true <;>
        simp [Function.comp, h, applyUpdateSet]

/--
C8: soft delete is idempotent at the interface: deleting a present,
unexpired record stamps its expires_at with now and returns true; a second
delete at any later (or equal) time returns false rather than an error, and
deleting an id that never existed returns false as well.
-/
theorem C8_soft_delete_idempotent (now1 now2 : Rat) (cid : String)
    (table : List ContextRecord) (r : ContextRecord)
    (hle : now1 ≤ now2) (hmem : r ∈ table) (hid : r.id = cid)
    (hlive : isLive now1 r = true)
    (huniq : ∀ s ∈ table, s.id = cid → s = r) :
    (delete_context now1 cid table).1 = true ∧
    (∃ s ∈ (delete_context now1 cid table).2,
      s.id = cid ∧ s.expiresAt = some now1) ∧
    (delete_context now2 cid (delete_context now1 cid table).2).1 = false ∧
    (∀ table2 : List ContextRecord, (∀ s ∈ table2, s.id ≠ cid) →
      (delete_context now1 cid table2).1 = false) := by
  have hmatch : matchesRow now1 cid r = true := by
    simp [matchesRow, hid, hlive]
  refine ⟨?_, ?_, ?_, ?_⟩
  · simp only [delete_context, decide_eq_true_eq]
    rw [List.length_pos_iff_exists_mem]
    exact ⟨r, List.mem_filter.2 ⟨hmem, hmatch⟩⟩
  · refine ⟨applyDeleteSet now1 r, ?_, ?_, ?_⟩
    · simp only [delete_context]
      exact List.mem_map.2 ⟨r, hmem, by simp [hmatch]⟩
    · simp [applyDeleteSet, hid]
    · simp [applyDeleteSet]
  · simp only [delete_context, decide_eq_false_iff_not]
    intro hpos
    rw [List.length_pos_iff_exists_mem] at hpos
    obtain ⟨s, hs⟩ := hpos
    rw [List.mem_filter] at hs
    obtain ⟨hsmem, hsmatch⟩ := hs
    obtain ⟨x, hxmem, hxeq⟩ := List.mem_map.1 hsmem
    by_cases hx : matchesRow now1 cid x = true
    · -- x was soft deleted at now1, so it is expired at now2
      rw [if_pos hx] at hxeq
      rw [← hxeq] at hsmatch
      simp [matchesRow, applyDeleteSet, isLive, Bool.and_eq_true] at hsmatch
      exact absurd hsmatch.2 (not_lt.2 hle)
    · -- x did not match at now1: by uniqueness its id is not cid
      rw [if_neg hx] at hxeq
      rw [← hxeq] at hsmatch
      simp [matchesRow, Bool.and_eq_true, beq_iff_eq] at hsmatch
      have := huniq x hxmem hsmatch.1
      rw [this] at hx
      exact hx hmatch
  · intro table2 hnone
    simp only [delete_context, decide_eq_false_iff_not]
    intro hpos
    rw [List.length_pos_iff_exists_mem] at hpos
    obtain ⟨s, hs⟩ := hpos
    rw [List.mem_filter] at hs
    have := hs.2
    simp [matchesRow, Bool.and_eq_true, beq_iff_eq] at this
    exact hnone s hs.1 this.1

/-- witness for C8 at a concrete table and times. -/
theorem C8_soft_delete_idempotent_witness :
    ((0 : Rat) ≤ 1 ∧ demoRecord ∈ [demoRecord] ∧ demoRecord.id = "ctx_1" ∧
      isLive 0 demoRecord = true ∧
      (∀ s ∈ [demoRecord], s.id = "ctx_1" → s = demoRecord)) ∧
    ((delete_context 0 "ctx_1" [demoRecord]).1 = true ∧
     (∃ s ∈ (delete_context 0 "ctx_1" [demoRecord]).2,
        s.id = "ctx_1" ∧ s.expiresAt = some 0) ∧
     (delete_context 1 "ctx_1" (delete_context 0 "ctx_1" [demoRecord]).2).1 = false ∧
     (∀ table2 : List ContextRecord, (∀ s ∈ table2, s.id ≠ "ctx_1") →
        (delete_context 0 "ctx_1" table2).1 = false)) :=
  ⟨⟨by norm_num, by simp, by decide, by decide, by decide⟩,
   C8_soft_delete_idempotent 0 1 "ctx_1" [demoRecord] demoRecord
     (by norm_num) (by simp) (by decide) (by decide) (by decide)⟩

/-! ### Rate limiter -/

/-- the lazy sweep keeps every entry still inside the window. -/
theorem sweep_keep (period now : Rat) (l : List Rat)
    (h : ∀ t ∈ l, now - t < period) : sweep period now l = l := by
  simp only [sweep, List.filter_eq_self, decide_eq_true_eq]
  exact h

/-- the lazy sweep evicts every entry at least one full window old. -/
theorem sweep_drop (period now : Rat) (l : List Rat)
    (h : ∀ t ∈ l, period ≤ now - t) : sweep period now l = [] := by
  simp only [sweep, List.filter_eq_nil_iff, decide_eq_true_eq]
  intro t ht
  exact not_lt.2 (h t ht)

/-- a run of admitted checks: starting from a map whose list at the key is
L, processing times ts whose pairwise spread against L stays inside the
window admits every check and appends the times in order. -/
theorem runChecks_all_allowed (calls : Nat) (period : Rat) (key : String) :
    ∀ (ts L : List Rat) (m : String → List Rat),
      m key = L →
      L.length + ts.length ≤ calls →
      (∀ e ∈ L ++ ts, ∀ t ∈ ts, t - e < period) →
      (runChecks key ⟨calls, period, m⟩ ts).1 = List.replicate ts.length true ∧
      ∃ m2, (runChecks key ⟨calls, period, m⟩ ts).2 = ⟨calls, period, m2⟩ ∧
        m2 key = L ++ ts := by
  intro ts
  induction ts with
  | nil =>
    intro L m hm _ _
    exact ⟨rfl, m, rfl, by simp [hm]⟩
  | cons t ts ih =>
    intro L m hm hlen hwin
    have hkeep : sweep period t L = L := by
      apply sweep_keep
      intro e he
      exact hwin e (List.mem_append_left _ he) t (List.mem_cons_self _ _)
    have hguard : ¬ (calls ≤ L.length) := by
      simp only [List.length_cons] at hlen
      omega
    have hstep : isAllowed ⟨calls, period, m⟩ key t =
        (true, ⟨calls, period, setKey m key (L ++ [t])⟩) := by
      simp [isAllowed, hm, hkeep, hguard]
    have hm2 : setKey m key (L ++ [t]) key = L ++ [t] := by simp [setKey]
    have hlen2 : (L ++ [t]).length + ts.length ≤ calls := by
      simp only [List.length_append, List.length_singleton]
      simp only [List.length_cons] at hlen
      omega
    have hwin2 : ∀ e ∈ (L ++ [t]) ++ ts, ∀ s ∈ ts, s - e < period := by
      intro e he s hs
      have he' : e ∈ L ++ t :: ts := by
        rw [List.append_assoc] at he
        simpa using he
      exact hwin e he' s (List.mem_cons_of_mem _ hs)
    obtain ⟨hres, m2, hm2eq, hm2key⟩ :=
      ih (L ++ [t]) (setKey m key (L ++ [t])) hm2 hlen2 hwin2
    constructor
    · simp only [runChecks, hstep, hres, List.length_cons, List.replicate_succ]
    · refine ⟨m2, ?_, by rw [hm2key, List.append_assoc]; rfl⟩
      simp only [runChecks, hstep, hm2eq]

/--
C6: for a fixed client key and a limiter with limit `calls`, after exactly
`calls` requests have been admitted within the current window, the next
is_allowed check made while all of them are still inside the window is
rejected; a check made after a full window period has elapsed since every
admitted request is admitted again, because the lazy sweep evicts the old
entries.
-/
theorem C6_rate_limiter (calls : Nat) (period : Rat) (key : String)
    (ts : List Rat) (now now2 : Rat)
    (hcalls : 0 < calls)
    (hlen : ts.length = calls)
    (hwin : ∀ e ∈ ts, ∀ t ∈ ts, t - e < period)
    (hnow : ∀ t ∈ ts, now - t < period)
    (hlater : ∀ t ∈ ts, period ≤ now2 - t) :
    (runChecks key ⟨calls, period, fun _ => []⟩ ts).1 =
      List.replicate calls true ∧
    (isAllowed (runChecks key ⟨calls, period, fun _ => []⟩ ts).2 key now).1 =
      false ∧
    (isAllowed
      (isAllowed (runChecks key ⟨calls, period, fun _ => []⟩ ts).2 key now).2
      key now2).1 = true := by
  obtain ⟨hres, m2, hm2eq, hm2key⟩ :=
    runChecks_all_allowed calls period key ts [] (fun _ => []) rfl
      (by simp [hlen]) (by simpa using hwin)
  simp only [List.nil_append] at hm2key
  have hkeep : sweep period now ts = ts := sweep_keep period now ts hnow
  have hfull : calls ≤ ts.length := by omega
  have hreject : isAllowed (runChecks key ⟨calls, period, fun _ => []⟩ ts).2 key now =
      (false, ⟨calls, period, setKey m2 key ts⟩) := by
    rw [hm2eq]
    simp [isAllowed, hm2key, hkeep, hfull]
  have hdrop : sweep period now2 ts = [] := sweep_drop period now2 ts hlater
  refine ⟨by rw [hres, hlen], by rw [hreject], ?_⟩
  rw [hreject]
  have hkey2 : setKey m2 key ts key = ts := by simp [setKey]
  simp [isAllowed, hkey2, hdrop, hcalls, Nat.pos_iff_ne_zero.1 hcalls]

/-- witness for C6: limit 2, window 60, admissions at times 0 and 1, a
rejected third check at time 2 and an admitted check at time 100. -/
theorem C6_rate_limiter_witness :
    ((0 : Nat) < 2 ∧ ([0, 1] : List Rat).length = 2) ∧
    ((runChecks "k" ⟨2, 60, fun _ => []⟩ [0, 1]).1 = List.replicate 2 true ∧
     (isAllowed (runChecks "k" ⟨2, 60, fun _ => []⟩ [0, 1]).2 "k" 2).1 = false ∧
     (isAllowed (isAllowed (runChecks "k" ⟨2, 60, fun _ => []⟩ [0, 1]).2 "k" 2).2
        "k" 100).1 = true) :=
  ⟨⟨by decide, by decide⟩,
   C6_rate_limiter 2 60 "k" [0, 1] 2 100 (by decide) (by decide)
     (by intro e he t ht; fin_cases he <;> fin_cases ht <;> norm_num)
     (by intro t ht; fin_cases ht <;> norm_num)
     (by intro t ht; fin_cases ht <;> norm_num)⟩

/-! ### JWKS cache and JWT validator -/

/-- a forced get_jwks call always fetches. -/
theorem get_jwks_forced (cacheTtl : Rat) (remote : List Jwk) (now : Rat)
    (st : JWKSState) :
    get_jwks cacheTtl remote now true st = (remote, ⟨some remote, now⟩, 1) := by
  simp [get_jwks]

/-- the scan finds nothing when no key carries the kid. -/
theorem findKid_eq_none (kid : String) (ks : List Jwk)
    (h : ∀ k ∈ ks, k.kid ≠ some kid) : findKid kid ks = none := by
  rw [findKid, List.find?_eq_none]
  intro k hk
  simp [h k hk]

/-- a successful scan returns a member carrying the kid. -/
theorem findKid_eq_some (kid : String) (ks : List Jwk) (k : Jwk)
    (h : findKid kid ks = some k) : k ∈ ks ∧ k.kid = some kid := by
  refine ⟨List.mem_of_find?_eq_some h, ?_⟩
  have := List.find?_some h
  simpa using this

/-- the two halves of the scan: a present kid is found with its key, an
absent kid makes the scan miss. -/
theorem scanRemote_spec (kid : String) (remote : List Jwk) :
    ((∃ k ∈ remote, k.kid = some kid) →
      ∃ k, findKid kid remote = some k ∧ k ∈ remote ∧ k.kid = some kid) ∧
    ((∀ k ∈ remote, k.kid ≠ some kid) → findKid kid remote = none) := by
  constructor
  · rintro ⟨k, hk, hkid⟩
    cases hf : findKid kid remote with
    | none =>
      rw [findKid, List.find?_eq_none] at hf
      have := hf k hk
      simp [hkid] at this
    | some j =>
      obtain ⟨hmem, hjkid⟩ := findKid_eq_some kid remote j hf
      exact ⟨j, rfl, hmem, hjkid⟩
  · exact findKid_eq_none kid remote

/--
C4: for every get_key_by_kid call whose kid is absent from the cached key
set, the call makes at most 2 fetches from the JWKS endpoint; when the kid
is present in the key set returned by a (possibly forced) refresh it returns
such a key, and when the kid is absent even from the refreshed set it
returns none.
-/
theorem C4_jwks_refresh_on_miss (cacheTtl : Rat) (remote : List Jwk)
    (now : Rat) (kid : String) (st : JWKSState)
    (hmiss : ∀ k ∈ st.keysCache.getD [], k.kid ≠ some kid) :
    (get_key_by_kid cacheTtl remote now kid st).2.2 ≤ 2 ∧
    ((∃ k ∈ remote, k.kid = some kid) →
      ∃ k, (get_key_by_kid cacheTtl remote now kid st).1 = some k ∧
        k ∈ remote ∧ k.kid = some kid) ∧
    ((∀ k ∈ remote, k.kid ≠ some kid) →
      (get_key_by_kid cacheTtl remote now kid st).1 = none) := by
  have hmain : (get_key_by_kid cacheTtl remote now kid st).1 =
      findKid kid remote ∧
      (get_key_by_kid cacheTtl remote now kid st).2.2 ≤ 2 := by
    by_cases hc : st.keysCache ≠ none ∧ now - st.cacheTimestamp < cacheTtl
    · -- cache is fresh: first scan runs over the cache and misses
      have h1 : get_jwks cacheTtl remote now false st =
          (st.keysCache.getD [], st, 0) := by
        rw [get_jwks, if_pos ⟨rfl, hc.1, hc.2⟩]
      have hfind1 : findKid kid (st.keysCache.getD []) = none :=
        findKid_eq_none kid _ hmiss
      rw [get_key_by_kid, h1]
      simp only [hfind1, get_jwks_forced]
      exact ⟨by trivial, by norm_num⟩
    · -- cache is stale or empty: the first call already fetches remote
      have h1 : get_jwks cacheTtl remote now false st =
          (remote, ⟨some remote, now⟩, 1) := by
        rw [get_jwks, if_neg]
        intro hcon
        exact hc ⟨hcon.2.1, hcon.2.2⟩
      rw [get_key_by_kid, h1]
      cases hf : findKid kid remote with
      | none => simp only [hf, get_jwks_forced]; exact ⟨by trivial, by norm_num⟩
      | some k => simp only [hf]; exact ⟨by trivial, by norm_num⟩
  refine ⟨hmain.2, ?_, ?_⟩
  · intro hex
    obtain ⟨k, hf, hmem, hkid⟩ := (scanRemote_spec kid remote).1 hex
    exact ⟨k, by rw [hmain.1, hf], hmem, hkid⟩
  · intro hnone
    rw [hmain.1]
    exact (scanRemote_spec kid remote).2 hnone

/-- witness for C4: a fresh cache holding only kid k1, a remote set holding
kid k2; looking up k2 resolves after the forced refresh within 2 fetches,
and a second scenario hypothesis is covered by the same theorem. -/
theorem C4_jwks_refresh_on_miss_witness :
    (∀ k ∈ (JWKSState.mk (some [⟨some "k1", "pub1"⟩]) 5).keysCache.getD [],
      k.kid ≠ some "k2") ∧
    ((get_key_by_kid 3600 [⟨some "k2", "pub2"⟩] 10 "k2"
        ⟨some [⟨some "k1", "pub1"⟩], 5⟩).2.2 ≤ 2 ∧
     ((∃ k ∈ [Jwk.mk (some "k2") "pub2"], k.kid = some "k2") →
       ∃ k, (get_key_by_kid 3600 [⟨some "k2", "pub2"⟩] 10 "k2"
          ⟨some [⟨some "k1", "pub1"⟩], 5⟩).1 = some k ∧
         k ∈ [Jwk.mk (some "k2") "pub2"] ∧ k.kid = some "k2") ∧
     ((∀ k ∈ [Jwk.mk (some "k2") "pub2"], k.kid ≠ some "k2") →
       (get_key_by_kid 3600 [⟨some "k2", "pub2"⟩] 10 "k2"
          ⟨some [⟨some "k1", "pub1"⟩], 5⟩).1 = none)) :=
  ⟨by decide,
   C4_jwks_refresh_on_miss 3600 [⟨some "k2", "pub2"⟩] 10 "k2"
     ⟨some [⟨some "k1", "pub1"⟩], 5⟩ (by decide)⟩

/-- the hard-coded allowlist rejects every other algorithm, whatever the
rest of decode would have done. -/
theorem joseDecode_rejects (alg : String) (rest : JoseOutcome)
    (h1 : alg ≠ "RS256") (h2 : alg ≠ "ES256") :
    joseDecode ["RS256", "ES256"] alg rest = .jwtError := by
  rw [joseDecode, if_neg]
  simp [List.contains, List.elem_eq_mem, h1, h2]

/--
C3: every token whose signature algorithm is outside the asymmetric
allowlist (RS256 or ES256) is rejected by validate_token with a validation
error, for any key material, any signature-verification outcome and any
payload; in particular no HS256 token is ever accepted.
-/
theorem C3_algorithm_allowlist (cacheTtl : Rat) (remote : List Jwk)
    (now : Rat) (header : TokenHeader) (constructOk : Jwk → Bool)
    (joseRest : Jwk → JoseOutcome) (requiredTenantId : Option String)
    (requiredScopes : Option (List String)) (st : JWKSState)
    (h1 : header.alg ≠ "RS256") (h2 : header.alg ≠ "ES256") :
    exceptIsOk (validate_token cacheTtl remote now header constructOk
      joseRest requiredTenantId requiredScopes st) = false := by
  rw [validate_token]
  cases hk : header.kid with
  | none => rfl
  | some kid =>
    by_cases hke : kid = ""
    · simp [hke, exceptIsOk]
    · simp only [if_neg hke]
      cases hfind : (get_key_by_kid cacheTtl remote now kid st).1 with
      | none => rfl
      | some jwkData =>
        by_cases hco : constructOk jwkData = false
        · simp [hco, exceptIsOk]
        · simp only [hco, if_neg, if_false]
          rw [joseDecode_rejects header.alg (joseRest jwkData) h1 h2]
          simp [exceptIsOk]

/-- witness for C3: an HS256 token whose kid resolves and whose signature
check (against whatever key material) would succeed is still rejected. -/
theorem C3_algorithm_allowlist_witness :
    ("HS256" ≠ "RS256" ∧ "HS256" ≠ "ES256") ∧
    exceptIsOk (validate_token 3600 [⟨some "kid1", "pub"⟩] 0
      ⟨some "kid1", "HS256"⟩ (fun _ => true)
      (fun _ => .ok ⟨some "alice", some 0, some 100, none, none⟩)
      none none ⟨none, 0⟩) = false :=
  ⟨⟨by decide, by decide⟩,
   C3_algorithm_allowlist 3600 [⟨some "kid1", "pub"⟩] 0
     ⟨some "kid1", "HS256"⟩ (fun _ => true)
     (fun _ => .ok ⟨some "alice", some 0, some 100, none, none⟩)
     none none ⟨none, 0⟩ (by decide) (by decide)⟩

/-! ### Summarization engine: step lemmas -/

/-- best-so-far tracking never lowers the best score. -/
theorem updateBest_bestScore_le (summary : String) (s : Rat) (st : LoopState) :
    st.bestScore ≤ (updateBest summary s st).bestScore := by
  rw [updateBest]
  split
  · next h => exact le_of_lt h
  · exact le_rfl

/-- after best-so-far tracking the best score dominates the tracked score. -/
theorem le_updateBest_bestScore (summary : String) (s : Rat) (st : LoopState) :
    s ≤ (updateBest summary s st).bestScore := by
  rw [updateBest]
  split
  · exact le_rfl
  · next h => exact not_lt.1 h

/-- best-so-far tracking does not touch the ghost fallback counter. -/
theorem updateBest_fallbackCalls (summary : String) (s : Rat) (st : LoopState) :
    (updateBest summary s st).fallbackCalls = st.fallbackCalls := by
  rw [updateBest]
  split <;> rfl

/-- the primary attempt never touches the ghost fallback counter. -/
theorem primaryStep_fallbackCalls (req : SummRequest)
    (primary : Nat → GenResult) (score : String → Rat) (n1 : Nat)
    (st : LoopState) :
    (primaryStep req primary score n1 st).state.fallbackCalls =
      st.fallbackCalls := by
  rw [primaryStep]
  cases primary n1 with
  | ok summary =>
    simp only []
    split
    · simp [Step.state, updateBest_fallbackCalls]
    · split <;> simp [Step.state, updateBest_fallbackCalls]
  | modelError => rfl

/-- the primary attempt never lowers the best score. -/
theorem primaryStep_bestScore_le (req : SummRequest)
    (primary : Nat → GenResult) (score : String → Rat) (n1 : Nat)
    (st : LoopState) :
    st.bestScore ≤ (primaryStep req primary score n1 st).state.bestScore := by
  rw [primaryStep]
  cases primary n1 with
  | ok summary =>
    simp only []
    split
    · simpa [Step.state] using updateBest_bestScore_le summary (score summary) st
    · split
      · simpa [Step.state] using updateBest_bestScore_le summary (score summary) st
      · simpa [Step.state] using updateBest_bestScore_le summary (score summary) st
  | modelError => exact le_rfl

/-- breaking out of the primary attempt means the threshold was met by the
best score. -/
theorem primaryStep_broke_le (req : SummRequest) (primary : Nat → GenResult)
    (score : String → Rat) (n1 : Nat) (st st1 : LoopState)
    (h : primaryStep req primary score n1 st = .broke st1) :
    req.semanticThreshold ≤ st1.bestScore := by
  rw [primaryStep] at h
  cases hp : primary n1 with
  | ok summary =>
    rw [hp] at h
    simp only [] at h
    split at h
    · next hth =>
      cases h
      exact le_trans hth (le_updateBest_bestScore summary (score summary) st)
    · cases h
  | modelError =>
    rw [hp] at h
    cases h

/-- a continuing first attempt is exactly a missing first attempt: a
ModelError or a score below the threshold. -/
theorem primaryStep_cont_misses (req : SummRequest) (primary : Nat → GenResult)
    (score : String → Rat) (st st1 : LoopState)
    (h : primaryStep req primary score 1 st = .cont st1) :
    firstAttemptMisses req primary score := by
  rw [primaryStep] at h
  rw [firstAttemptMisses]
  cases hp : primary 1 with
  | ok summary =>
    rw [hp] at h
    simp only [] at h
    split at h
    · cases h
    · next hth => exact not_le.1 hth
  | modelError => trivial

/-- a first attempt that breaks does not miss. -/
theorem primaryStep_broke_not_misses (req : SummRequest)
    (primary : Nat → GenResult) (score : String → Rat) (st st1 : LoopState)
    (h : primaryStep req primary score 1 st = .broke st1) :
    ¬ firstAttemptMisses req primary score := by
  rw [primaryStep] at h
  rw [firstAttemptMisses]
  cases hp : primary 1 with
  | ok summary =>
    rw [hp] at h
    simp only [] at h
    split at h
    · next hth => exact not_lt.2 hth
    · cases h
  | modelError =>
    rw [hp] at h
    cases h

/-- outside the first attempt (or for a local request) the fallback block is
skipped entirely. -/
theorem fallbackStep_skipped (req : SummRequest) (fallback : GenResult)
    (score : String → Rat) (n1 : Nat) (st : LoopState)
    (h : ¬ (req.aiModel ≠ "local" ∧ n1 = 1)) :
    fallbackStep req fallback score n1 st = .cont st := by
  rw [fallbackStep, if_neg h]

/-- the fallback block never lowers the best score. -/
theorem fallbackStep_bestScore_le (req : SummRequest) (fallback : GenResult)
    (score : String → Rat) (n1 : Nat) (st : LoopState) :
    st.bestScore ≤ (fallbackStep req fallback score n1 st).state.bestScore := by
  rw [fallbackStep]
  split
  · cases fallback with
    | ok summary =>
      simp only []
      split
      · exact le_trans (by simp)
          (updateBest_bestScore_le summary (score summary) _)
      · exact le_trans (by simp)
          (updateBest_bestScore_le summary (score summary) _)
    | modelError => simp [Step.state]
  · exact le_rfl

/-- breaking out of the fallback block means the threshold was met. -/
theorem fallbackStep_broke_le (req : SummRequest) (fallback : GenResult)
    (score : String → Rat) (n1 : Nat) (st st2 : LoopState)
    (h : fallbackStep req fallback score n1 st = .broke st2) :
    req.semanticThreshold ≤ st2.bestScore := by
  rw [fallbackStep] at h
  split at h
  · cases hf : fallback with
    | ok summary =>
      rw [hf] at h
      simp only [] at h
      split at h
      · next hth =>
        cases h
        exact le_trans hth (le_updateBest_bestScore summary (score summary) _)
      · cases h
    | modelError =>
      rw [hf] at h
      cases h
  · cases h

/-- the ghost fallback counter of the state a fallback block leaves behind:
incremented exactly when the block was entered. -/
theorem fallbackStep_fallbackCalls (req : SummRequest) (fallback : GenResult)
    (score : String → Rat) (n1 : Nat) (st : LoopState) :
    (fallbackStep req fallback score n1 st).state.fallbackCalls =
      (if req.aiModel ≠ "local" ∧ n1 = 1 then st.fallbackCalls + 1
       else st.fallbackCalls) := by
  rw [fallbackStep]
  split
  · cases fallback with
    | ok summary =>
      simp only []
      split <;> simp [Step.state, updateBest_fallbackCalls]
    | modelError => simp [Step.state]
  · rfl

/-- when an invoked fallback generation succeeds, its score enters the
best-so-far tracking. -/
theorem fallbackStep_ok_le (req : SummRequest) (s : String)
    (score : String → Rat) (n1 : Nat) (st : LoopState)
    (hcond : req.aiModel ≠ "local" ∧ n1 = 1) :
    score s ≤ (fallbackStep req (.ok s) score n1 st).state.bestScore := by
  rw [fallbackStep, if_pos hcond]
  simp only []
  split
  · exact le_updateBest_bestScore s (score s) _
  · exact le_updateBest_bestScore s (score s) _

/-- a successful finishRun reports the best score tracked so far. -/
theorem finishRun_success (req : SummRequest) (n : Nat) (st : LoopState)
    (resp : SummResponse) (h : finishRun req n st = .success resp) :
    resp.semanticScore = st.bestScore := by
  rw [finishRun] at h
  split at h
  · cases h
  · cases h
    rfl

/-- the successor unfolding of the while loop. -/
theorem summLoop_succ_eq (req : SummRequest) (primary : Nat → GenResult)
    (fallback : GenResult) (score : String → Rat) (k n : Nat)
    (st : LoopState) :
    summLoop req primary fallback score (k + 1) n st =
      (match primaryStep req primary score (n + 1) st with
       | .broke st1 => (finishRun req (n + 1) st1, ⟨st1.fallbackCalls⟩)
       | .cont st1 =>
         match fallbackStep req fallback score (n + 1) st1 with
         | .broke st2 => (finishRun req (n + 1) st2, ⟨st2.fallbackCalls⟩)
         | .cont st2 =>
           if req.retryAttempts ≤ n + 1 then
             (.runtimeErrorBareRaise, ⟨st2.fallbackCalls⟩)
           else summLoop req primary fallback score k (n + 1) st2) := rfl

/-- one-step unfolding when the primary attempt breaks. -/
theorem summLoop_succ_broke (req : SummRequest) (primary : Nat → GenResult)
    (fallback : GenResult) (score : String → Rat) (k n : Nat)
    (st st1 : LoopState)
    (hp : primaryStep req primary score (n + 1) st = .broke st1) :
    summLoop req primary fallback score (k + 1) n st =
      (finishRun req (n + 1) st1, ⟨st1.fallbackCalls⟩) := by
  rw [summLoop_succ_eq, hp]

/-- one-step unfolding when the primary attempt continues and the fallback
block breaks. -/
theorem summLoop_succ_cont_broke (req : SummRequest)
    (primary : Nat → GenResult) (fallback : GenResult)
    (score : String → Rat) (k n : Nat) (st st1 st2 : LoopState)
    (hp : primaryStep req primary score (n + 1) st = .cont st1)
    (hf : fallbackStep req fallback score (n + 1) st1 = .broke st2) :
    summLoop req primary fallback score (k + 1) n st =
      (finishRun req (n + 1) st2, ⟨st2.fallbackCalls⟩) := by
  rw [summLoop_succ_eq, hp]
  dsimp only
  rw [hf]

/-- one-step unfolding when both blocks continue: the end-of-iteration
bare-raise check runs. -/
theorem summLoop_succ_cont_cont (req : SummRequest)
    (primary : Nat → GenResult) (fallback : GenResult)
    (score : String → Rat) (k n : Nat) (st st1 st2 : LoopState)
    (hp : primaryStep req primary score (n + 1) st = .cont st1)
    (hf : fallbackStep req fallback score (n + 1) st1 = .cont st2) :
    summLoop req primary fallback score (k + 1) n st =
      (if req.retryAttempts ≤ n + 1 then
        (.runtimeErrorBareRaise, ⟨st2.fallbackCalls⟩)
       else summLoop req primary fallback score k (n + 1) st2) := by
  rw [summLoop_succ_eq, hp]
  dsimp only
  rw [hf]

/-- after the first iteration the fallback block can never run again, so the
ghost counter is frozen. -/
theorem summLoop_fallbackCalls_frozen (req : SummRequest)
    (primary : Nat → GenResult) (fallback : GenResult)
    (score : String → Rat) :
    ∀ (k n : Nat) (st : LoopState), 1 ≤ n →
      (summLoop req primary fallback score k n st).2.fallbackCalls =
        st.fallbackCalls := by
  intro k
  induction k with
  | zero => intro n st _; rfl
  | succ k ih =>
    intro n st hn
    cases hp : primaryStep req primary score (n + 1) st with
    | broke st1 =>
      rw [summLoop_succ_broke req primary fallback score k n st st1 hp]
      have := primaryStep_fallbackCalls req primary score (n + 1) st
      rw [hp] at this
      simpa [Step.state] using this
    | cont st1 =>
      have h1 : st1.fallbackCalls = st.fallbackCalls := by
        have := primaryStep_fallbackCalls req primary score (n + 1) st
        rw [hp] at this
        simpa [Step.state] using this
      have hskip : fallbackStep req fallback score (n + 1) st1 = .cont st1 :=
        fallbackStep_skipped req fallback score (n + 1) st1
          (by rintro ⟨-, hc⟩; omega)
      rw [summLoop_succ_cont_cont req primary fallback score k n st st1 st1
        hp hskip]
      split
      · simpa using h1
      · rw [ih (n + 1) st1 (by omega), h1]

/-- every success of the loop reports a semantic score at least the best
score already tracked on entry. -/
theorem summLoop_success_le (req : SummRequest) (primary : Nat → GenResult)
    (fallback : GenResult) (score : String → Rat) :
    ∀ (k n : Nat) (st : LoopState) (resp : SummResponse),
      (summLoop req primary fallback score k n st).1 = .success resp →
      st.bestScore ≤ resp.semanticScore := by
  intro k
  induction k with
  | zero =>
    intro n st resp h
    have : finishRun req n st = .success resp := h
    rw [finishRun_success req n st resp this]
  | succ k ih =>
    intro n st resp h
    cases hp : primaryStep req primary score (n + 1) st with
    | broke st1 =>
      rw [summLoop_succ_broke req primary fallback score k n st st1 hp] at h
      have hfin : finishRun req (n + 1) st1 = .success resp := h
      rw [finishRun_success req (n + 1) st1 resp hfin]
      have := primaryStep_bestScore_le req primary score (n + 1) st
      rw [hp] at this
      simpa [Step.state] using this
    | cont st1 =>
      have hle1 : st.bestScore ≤ st1.bestScore := by
        have := primaryStep_bestScore_le req primary score (n + 1) st
        rw [hp] at this
        simpa [Step.state] using this
      cases hf : fallbackStep req fallback score (n + 1) st1 with
      | broke st2 =>
        rw [summLoop_succ_cont_broke req primary fallback score k n st st1 st2
          hp hf] at h
        have hfin : finishRun req (n + 1) st2 = .success resp := h
        rw [finishRun_success req (n + 1) st2 resp hfin]
        have := fallbackStep_bestScore_le req fallback score (n + 1) st1
        rw [hf] at this
        exact le_trans hle1 (by simpa [Step.state] using this)
      | cont st2 =>
        rw [summLoop_succ_cont_cont req primary fallback score k n st st1 st2
          hp hf] at h
        have hle2 : st1.bestScore ≤ st2.bestScore := by
          have := fallbackStep_bestScore_le req fallback score (n + 1) st1
          rw [hf] at this
          simpa [Step.state] using this
        split at h
        · cases h
        · exact le_trans hle1 (le_trans hle2 (ih (n + 1) st2 resp h))

/-- the loop can only end in a response or in the bare raise: the
SemanticThresholdError branch after the loop is unreachable whenever the
loop is entered at all. -/
theorem summLoop_ne_thresholdError (req : SummRequest)
    (primary : Nat → GenResult) (fallback : GenResult)
    (score : String → Rat) :
    ∀ (k n : Nat) (st : LoopState), n < req.retryAttempts →
      k + n = req.retryAttempts →
      ∀ (a : Nat) (b : Rat),
        (summLoop req primary fallback score k n st).1 ≠
          .semanticThresholdError a b := by
  intro k
  induction k with
  | zero =>
    intro n st h1 h2 a b
    exfalso
    omega
  | succ k ih =>
    intro n st h1 h2 a b
    cases hp : primaryStep req primary score (n + 1) st with
    | broke st1 =>
      rw [summLoop_succ_broke req primary fallback score k n st st1 hp]
      have hle := primaryStep_broke_le req primary score (n + 1) st st1 hp
      simp [finishRun, not_lt.2 hle]
    | cont st1 =>
      cases hf : fallbackStep req fallback score (n + 1) st1 with
      | broke st2 =>
        rw [summLoop_succ_cont_broke req primary fallback score k n st st1 st2
          hp hf]
        have hle := fallbackStep_broke_le req fallback score (n + 1) st1 st2 hf
        simp [finishRun, not_lt.2 hle]
      | cont st2 =>
        rw [summLoop_succ_cont_cont req primary fallback score k n st st1 st2
          hp hf]
        split
        · simp
        · next hlast => exact ih (n + 1) st2 (by omega) (by omega) a b

/-- for every request the loop actually runs (retry_attempts is at least 1
for every validated request), generate_summary never produces the
SemanticThresholdError its docstring promises: on exhaustion it reaches the
bare raise instead. -/
theorem generate_summary_never_thresholdError (req : SummRequest)
    (primary : Nat → GenResult) (fallback : GenResult)
    (score : String → Rat) (h : 1 ≤ req.retryAttempts) :
    ∀ (a : Nat) (b : Rat),
      (generate_summary req primary fallback score).1 ≠
        .semanticThresholdError a b := by
  rw [generate_summary]
  exact summLoop_ne_thresholdError req primary fallback score
    req.retryAttempts 0 (initState req) (by omega) (by omega)

/-! ### Summarization engine: claims -/

/--
C1: the claim promises that an exhausted retry budget with best score below
the threshold raises SemanticThresholdError carrying attempts and best
score. The code instead executes the bare raise at the end of the loop body
with no active exception (a RuntimeError): here a local-backend request with
budget 3 and threshold 0.8 whose three attempts all score 0.7 ends in the
bare raise, not in a SemanticThresholdError.
-/
theorem C1_exhaustion_bare_raise :
    (generate_summary demoReqLocal (fun _ => .ok "s") .modelError
      (fun _ => mkRat 7 10)).1 = .runtimeErrorBareRaise := by decide

/--
C2 counterexample: the claim says the fallback attempt happens immediately
after the first primary-backend failure and only triggered by a primary
failure. Here the primary oracle never fails (it is the constant .ok "p"),
its score 0.7 merely falls below the threshold 0.8, and the fallback is
nevertheless invoked exactly once.
-/
theorem C2_fallback_counterexample :
    (generate_summary demoReqOpenai (fun _ => .ok "p") (.ok "f")
      (fun _ => mkRat 7 10)).2.fallbackCalls = 1 := by decide

/--
C2 amended: for every request, the fallback attempt to the local backend
happens at most once; it happens exactly when the requested backend is not
local, the loop runs at all, and the first attempt does not meet the
threshold — whether because the primary call failed or merely scored below
the threshold; and when the invoked fallback generation succeeds, its
semantic score participates in the best-score tracking reported by a
successful run.
-/
theorem C2_fallback_amended (req : SummRequest) (primary : Nat → GenResult)
    (fallback : GenResult) (score : String → Rat) :
    (generate_summary req primary fallback score).2.fallbackCalls ≤ 1 ∧
    ((generate_summary req primary fallback score).2.fallbackCalls = 1 ↔
      (req.aiModel ≠ "local" ∧ 1 ≤ req.retryAttempts ∧
        firstAttemptMisses req primary score)) ∧
    (∀ (resp : SummResponse) (s : String),
      (generate_summary req primary fallback score).1 = .success resp →
      fallback = .ok s →
      1 ≤ (generate_summary req primary fallback score).2.fallbackCalls →
      score s ≤ resp.semanticScore) := by
  cases hr : req.retryAttempts with
  | zero =>
    have hgen : generate_summary req primary fallback score =
        (finishRun req 0 (initState req), ⟨0⟩) := by
      rw [generate_summary, hr]
      rfl
    refine ⟨by rw [hgen]; simp, ?_, ?_⟩
    · exact iff_of_false (by rw [hgen]; simp)
        (by rintro ⟨-, hge, -⟩; omega)
    · intro resp s _ _ hge
      rw [hgen] at hge
      simp at hge
  | succ k =>
    cases hp : primaryStep req primary score 1 (initState req) with
    | broke st1 =>
      have hgen : generate_summary req primary fallback score =
          (finishRun req 1 st1, ⟨st1.fallbackCalls⟩) := by
        rw [generate_summary, hr]
        exact summLoop_succ_broke req primary fallback score k 0
          (initState req) st1 hp
      have hc0 : st1.fallbackCalls = 0 := by
        have := primaryStep_fallbackCalls req primary score 1 (initState req)
        rw [hp] at this
        simpa [Step.state, initState] using this
      have hnm := primaryStep_broke_not_misses req primary score
        (initState req) st1 hp
      refine ⟨by rw [hgen]; simp [hc0], ?_, ?_⟩
      · exact iff_of_false (by rw [hgen]; simp [hc0])
          (by rintro ⟨-, -, hmiss⟩; exact hnm hmiss)
      · intro resp s _ _ hge
        rw [hgen] at hge
        simp [hc0] at hge
    | cont st1 =>
      have hc1 : st1.fallbackCalls = 0 := by
        have := primaryStep_fallbackCalls req primary score 1 (initState req)
        rw [hp] at this
        simpa [Step.state, initState] using this
      have hmiss := primaryStep_cont_misses req primary score
        (initState req) st1 hp
      by_cases hloc : req.aiModel = "local"
      · have hskip : fallbackStep req fallback score 1 st1 = .cont st1 :=
          fallbackStep_skipped req fallback score 1 st1
            (by rintro ⟨hne, -⟩; exact hne hloc)
        have hgen : generate_summary req primary fallback score =
            (if k + 1 ≤ 1 then
              (.runtimeErrorBareRaise, ⟨st1.fallbackCalls⟩)
             else summLoop req primary fallback score k 1 st1) := by
          have h0 := summLoop_succ_cont_cont req primary fallback score k 0
            (initState req) st1 st1 hp hskip
          rw [hr] at h0
          rw [generate_summary, hr]
          simpa using h0
        have hfc : (generate_summary req primary fallback score).2.fallbackCalls
            = 0 := by
          rw [hgen]
          split
          · simpa using hc1
          · rw [summLoop_fallbackCalls_frozen req primary fallback score k 1
              st1 le_rfl, hc1]
        refine ⟨by rw [hfc]; omega, ?_, ?_⟩
        · exact iff_of_false (by rw [hfc]; omega)
            (by rintro ⟨hne, -⟩; exact hne hloc)
        · intro resp s _ _ hge
          rw [hfc] at hge
          exact absurd hge (by omega)
      · have hcond : req.aiModel ≠ "local" ∧ (1 : Nat) = 1 := ⟨hloc, rfl⟩
        cases hf : fallbackStep req fallback score 1 st1 with
        | broke st2 =>
          have hc2 : st2.fallbackCalls = 1 := by
            have := fallbackStep_fallbackCalls req fallback score 1 st1
            rw [hf, if_pos hcond] at this
            simpa [Step.state, hc1] using this
          have hgen : generate_summary req primary fallback score =
              (finishRun req 1 st2, ⟨st2.fallbackCalls⟩) := by
            rw [generate_summary, hr]
            exact summLoop_succ_cont_broke req primary fallback score k 0
              (initState req) st1 st2 hp hf
          refine ⟨by rw [hgen]; simp [hc2],
            iff_of_true (by rw [hgen]; simpa using hc2)
              ⟨hloc, by omega, hmiss⟩, ?_⟩
          intro resp s hsucc hfb _
          subst hfb
          have hle : score s ≤ st2.bestScore := by
            have := fallbackStep_ok_le req s score 1 st1 hcond
            rw [hf] at this
            simpa [Step.state] using this
          rw [hgen] at hsucc
          have hfin : finishRun req 1 st2 = .success resp := hsucc
          rw [finishRun_success req 1 st2 resp hfin]
          exact hle
        | cont st2 =>
          have hc2 : st2.fallbackCalls = 1 := by
            have := fallbackStep_fallbackCalls req fallback score 1 st1
            rw [hf, if_pos hcond] at this
            simpa [Step.state, hc1] using this
          have hgen : generate_summary req primary fallback score =
              (if k + 1 ≤ 1 then
                (.runtimeErrorBareRaise, ⟨st2.fallbackCalls⟩)
               else summLoop req primary fallback score k 1 st2) := by
            have h0 := summLoop_succ_cont_cont req primary fallback score k 0
              (initState req) st1 st2 hp hf
            rw [hr] at h0
            rw [generate_summary, hr]
            simpa using h0
          have hfc : (generate_summary req primary fallback score).2.fallbackCalls
              = 1 := by
            rw [hgen]
            split
            · simpa using hc2
            · rw [summLoop_fallbackCalls_frozen req primary fallback score k 1
                st2 le_rfl, hc2]
          refine ⟨by rw [hfc], iff_of_true hfc ⟨hloc, by omega, hmiss⟩, ?_⟩
          intro resp s hsucc hfb _
          subst hfb
          have hle : score s ≤ st2.bestScore := by
            have := fallbackStep_ok_le req s score 1 st1 hcond
            rw [hf] at this
            simpa [Step.state] using this
          rw [hgen] at hsucc
          split at hsucc
          · cases hsucc
          · exact le_trans hle
              (summLoop_success_le req primary (.ok s) score k 1 st2 resp hsucc)

/-- witness for C2 amended at the counterexample inputs: the fallback is
invoked once although the primary oracle never fails. -/
theorem C2_fallback_amended_witness :
    (generate_summary demoReqOpenai (fun _ => .ok "p") (.ok "f")
      (fun _ => mkRat 7 10)).2.fallbackCalls ≤ 1 ∧
    ((generate_summary demoReqOpenai (fun _ => .ok "p") (.ok "f")
      (fun _ => mkRat 7 10)).2.fallbackCalls = 1 ↔
      (demoReqOpenai.aiModel ≠ "local" ∧ 1 ≤ demoReqOpenai.retryAttempts ∧
        firstAttemptMisses demoReqOpenai (fun _ => .ok "p")
          (fun _ => mkRat 7 10))) ∧
    (∀ (resp : SummResponse) (s : String),
      (generate_summary demoReqOpenai (fun _ => .ok "p") (.ok "f")
        (fun _ => mkRat 7 10)).1 = .success resp →
      (GenResult.ok "f") = .ok s →
      1 ≤ (generate_summary demoReqOpenai (fun _ => .ok "p") (.ok "f")
        (fun _ => mkRat 7 10)).2.fallbackCalls →
      (fun _ => mkRat 7 10) s ≤ resp.semanticScore) :=
  C2_fallback_amended demoReqOpenai (fun _ => .ok "p") (.ok "f")
    (fun _ => mkRat 7 10)

/--
C5 counterexample: with the deterministic stub scoring 0.7, 0.75, 0.92 and
threshold 0.8 but the requested backend openai (not the fallback backend),
the first below-threshold attempt also triggers the single local fallback
attempt, whose failure adds a third warning: the run succeeds with the third
text and retry_count 2 as claimed, but with 3 warnings instead of the
claimed exactly 2.
-/
theorem C5_scenario_counterexample :
    (generate_summary demoReqOpenai demoPrimary .modelError demoScore).1 =
      .success
        { refinedText := "t3"
          semanticScore := mkRat 92 100
          modelUsed := "openai"
          attempts := 3
          retryCount := 2
          status := "partial_success"
          warnings := [.belowThreshold 1 (mkRat 7 10), .fallbackFailed,
            .belowThreshold 2 (mkRat 3 4)] } := by decide

/--
C5 amended: the claimed scenario holds exactly when the requested backend is
the fallback (local) backend, so that the fallback block stays inert: with
retry budget 3, threshold 0.8 and the deterministic backend succeeding on
every attempt with scores 0.7, 0.75, 0.92 in order, generate_summary
returns the third attempt's text with retry_count 2, status
partial_success, and exactly 2 warnings.
-/
theorem C5_scenario_local_backend :
    (generate_summary demoReqLocal demoPrimary .modelError demoScore).1 =
      .success
        { refinedText := "t3"
          semanticScore := mkRat 92 100
          modelUsed := "local"
          attempts := 3
          retryCount := 2
          status := "partial_success"
          warnings := [.belowThreshold 1 (mkRat 7 10),
            .belowThreshold 2 (mkRat 3 4)] } := by decide

/-! ### Semantic scorer -/

/-- the clip never goes below 0. -/
theorem clip01_nonneg (x : ℝ) : 0 ≤ clip01 x := le_max_left 0 (min 1 x)

/-- the clip never exceeds 1. -/
theorem clip01_le_one (x : ℝ) : clip01 x ≤ 1 :=
  max_le zero_le_one (min_le_left 1 x)

/-- cosine similarity of a nonzero vector with itself is exactly 1. -/
theorem cosineSim_self (v : List Rat) (h : 0 < dotp v v) :
    cosineSim v v = 1 := by
  rw [cosineSim]
  have h0 : (0 : ℝ) < ((dotp v v : Rat) : ℝ) := by exact_mod_cast h
  rw [Real.mul_self_sqrt (le_of_lt h0)]
  exact div_self (ne_of_gt h0)

/--
C9: the semantic scorer always returns a value in [0, 1] (it is a total
function, so no exception can propagate); when the embedding succeeds the
result is the cosine similarity clipped to [0, 1]; when the sentence
transformer is missing or the encode call fails the result is exactly 0.5;
and scoring a text against itself, with the deterministic encoder producing
the same nonzero embedding twice, yields exactly 1.
-/
theorem C9_scorer_contract (initialized : Bool)
    (encodePair : String → String → Option (List Rat × List Rat))
    (t1 t2 : String) :
    (0 ≤ calculate_semantic_similarity initialized encodePair t1 t2 ∧
      calculate_semantic_similarity initialized encodePair t1 t2 ≤ 1) ∧
    (∀ (v w : List Rat), initialized = true → encodePair t1 t2 = some (v, w) →
      calculate_semantic_similarity initialized encodePair t1 t2 =
        clip01 (cosineSim v w)) ∧
    ((initialized = false ∨ encodePair t1 t2 = none) →
      calculate_semantic_similarity initialized encodePair t1 t2 = 1 / 2) ∧
    (∀ v : List Rat, initialized = true → encodePair t1 t2 = some (v, v) →
      0 < dotp v v →
      calculate_semantic_similarity initialized encodePair t1 t2 = 1) := by
  refine ⟨?_, ?_, ?_, ?_⟩
  · rw [calculate_semantic_similarity]
    split
    · norm_num
    · cases he : encodePair t1 t2 with
      | none => norm_num
      | some p =>
        obtain ⟨v, w⟩ := p
        exact ⟨clip01_nonneg (cosineSim v w), clip01_le_one (cosineSim v w)⟩
  · intro v w hi he
    simp [calculate_semantic_similarity, hi, he]
  · rintro (hi | he)
    · simp [calculate_semantic_similarity, hi]
    · rw [calculate_semantic_similarity]
      split
      · rfl
      · simp [he]
  · intro v hi he hpos
    simp [calculate_semantic_similarity, hi, he, cosineSim_self v hpos, clip01]

/-- witness for C9 at a concrete one-dimensional embedder that returns the
unit vector for every text. -/
theorem C9_scorer_contract_witness :
    (0 ≤ calculate_semantic_similarity true (fun _ _ => some ([1], [1]))
        "x" "x" ∧
      calculate_semantic_similarity true (fun _ _ => some ([1], [1]))
        "x" "x" ≤ 1) ∧
    (∀ (v w : List Rat), true = true →
      (fun _ _ => some (([1] : List Rat), ([1] : List Rat))) "x" "x" =
        some (v, w) →
      calculate_semantic_similarity true (fun _ _ => some ([1], [1]))
        "x" "x" = clip01 (cosineSim v w)) ∧
    ((true = false ∨
      (fun _ _ => some (([1] : List Rat), ([1] : List Rat))) "x" "x" = none) →
      calculate_semantic_similarity true (fun _ _ => some ([1], [1]))
        "x" "x" = 1 / 2) ∧
    (∀ v : List Rat, true = true →
      (fun _ _ => some (([1] : List Rat), ([1] : List Rat))) "x" "x" =
        some (v, v) →
      0 < dotp v v →
      calculate_semantic_similarity true (fun _ _ => some ([1], [1]))
        "x" "x" = 1) :=
  C9_scorer_contract true (fun _ _ => some ([1], [1])) "x" "x"

end Spec2Proof
